import Mathlib

/-!
Verification of `src/data_locality_demo.py`, a micro-benchmark that generates
an N x N integer matrix, sums it in row-major and column-major traversal
order, times both, and reports comparative statistics.

The shallow embedding below models:
  * the matrix (a NumPy 2-D `int32` array) as a shape plus a flat row-major
    list of integers, with per-axis bounds-checked element access;
  * `sum_matrix_row_major` / `sum_matrix_column_major` as the source's nested
    loops, folded over `List.range`, with `Option` tracking index errors;
  * `np.random.randint` (a library call) from its documented contract;
  * `run_performance_test` as a pure function of the configured size, run
    count, random stream and clock stream, returning the printed lines, the
    collected duration samples (as rationals, abstracting Python floats) and
    the derived averages and slowdown ratio.
-/

/-- A NumPy 2-D array: a shape `(rows, cols)` and the backing buffer in
row-major (C-contiguous) order, element `(r, c)` at flat offset
`r * cols + c`. -/
structure NpMatrix where
  rows : Nat
  cols : Nat
  data : List Int
  deriving Repr, DecidableEq

/-- Element access `matrix[r, c]`: NumPy checks each axis index against the
shape, then reads the backing buffer at the row-major offset.  `none` models
an `IndexError` / out-of-buffer read. -/
def NpMatrix.get (m : NpMatrix) (r c : Nat) : Option Int :=
  if r < m.rows ∧ c < m.cols then m.data[r * m.cols + c]? else none

/-- `sum_matrix_row_major` (src lines 13-23): `total_sum = 0`; for `r` in
`range(rows)`, for `c` in `range(cols)`, `total_sum += matrix[r, c]`.
The accumulator here is an exact (unbounded) integer, the value the loops
would compute with a wide accumulator; the source's accumulator is in fact
an `np.int32` that wraps modulo 2^32 -- `sum_matrix_row_major_i32` below is
the width-faithful variant.  Width-independent properties (traversal set,
bounds, determinism, equality of the two traversal orders) are unaffected by
this idealization. -/
def sum_matrix_row_major (m : NpMatrix) : Option Int :=
  (List.range m.rows).foldl
    (fun acc r =>
      (List.range m.cols).foldl
        (fun acc2 c => acc2.bind fun s => (m.get r c).map fun x => s + x)
        acc)
    (some 0)

/-- `sum_matrix_column_major` (src lines 25-36): identical but the outer loop
iterates columns and the inner loop iterates rows.  Same unbounded-integer
accumulator idealization as `sum_matrix_row_major`; the width-faithful
variant is `sum_matrix_column_major_i32` below. -/
def sum_matrix_column_major (m : NpMatrix) : Option Int :=
  (List.range m.cols).foldl
    (fun acc c =>
      (List.range m.rows).foldl
        (fun acc2 r => acc2.bind fun s => (m.get r c).map fun x => s + x)
        acc)
    (some 0)

/-- Element at `(r, c)` with default `0`; used to state the mathematical sum. -/
def NpMatrix.eltD (m : NpMatrix) (r c : Nat) : Int :=
  (m.data[r * m.cols + c]?).getD 0

/-- The mathematical sum of the matrix, row index outer. -/
def NpMatrix.msum (m : NpMatrix) : Int :=
  ∑ r ∈ Finset.range m.rows, ∑ c ∈ Finset.range m.cols, m.eltD r c

/-- `sum_matrix_row_major` with the matrix threaded through the loop state:
the Python loop body `total_sum += matrix[r, c]` reads the matrix and never
writes it, which the step function makes explicit. -/
def sum_matrix_row_major_run (m : NpMatrix) : Option Int × NpMatrix :=
  (List.range m.rows).foldl
    (fun st r =>
      (List.range m.cols).foldl
        (fun st2 c =>
          (st2.1.bind fun s => (st2.2.get r c).map fun x => s + x, st2.2))
        st)
    (some 0, m)

/-- `sum_matrix_column_major` with the matrix threaded through the loop
state. -/
def sum_matrix_column_major_run (m : NpMatrix) : Option Int × NpMatrix :=
  (List.range m.cols).foldl
    (fun st c =>
      (List.range m.rows).foldl
        (fun st2 r =>
          (st2.1.bind fun s => (st2.2.get r c).map fun x => s + x, st2.2))
        st)
    (some 0, m)

/-- Two's-complement wrap to a signed 32-bit value, the overflow behaviour
of NumPy `int32` scalar addition (a `RuntimeWarning`, never an exception). -/
def int32_wrap (z : Int) : Int :=
  (z + 2147483648) % 4294967296 - 2147483648

/-- The row-major summer with the accumulator width the source actually has:
the matrix elements are `np.int32` (src line 53, `dtype=np.int32`), so after
the first `total_sum += matrix[r, c]` the accumulator `total_sum` is an
`np.int32` scalar (both legacy value-based promotion and NEP 50 weak
promotion keep the in-range Python int `0` at the scalar's dtype), and every
subsequent addition wraps modulo 2^32.  Wrapping each step is faithful for
`int32`-valued elements: the first step `int32_wrap (0 + x) = x`. -/
def sum_matrix_row_major_i32 (m : NpMatrix) : Option Int :=
  (List.range m.rows).foldl
    (fun acc r =>
      (List.range m.cols).foldl
        (fun acc2 c =>
          acc2.bind fun s => (m.get r c).map fun x => int32_wrap (s + x))
        acc)
    (some 0)

/-- The column-major summer with the source's `np.int32` accumulator width,
as in `sum_matrix_row_major_i32`. -/
def sum_matrix_column_major_i32 (m : NpMatrix) : Option Int :=
  (List.range m.cols).foldl
    (fun acc c =>
      (List.range m.rows).foldl
        (fun acc2 r =>
          acc2.bind fun s => (m.get r c).map fun x => int32_wrap (s + x))
        acc)
    (some 0)

/-- Modelled from the spec: the matrix produced by
`np.random.randint(lo, hi, size=(n, n), dtype=np.int32)` (src line 53) for a
non-negative dimension.  NumPy is a library, not part of src; the spec
(section 4.1) describes the call as producing "a Matrix of N x N elements,
each independently drawn uniformly from [lo, hi), stored row-major
contiguous".  The draw is abstracted by a seed-determined stream of naturals;
element `i` is `lo + stream i % (hi - lo)`, which lies in `[lo, hi)` for any
stream whenever `lo < hi` (the harness always passes `lo = 0, hi = 100`). -/
def randint_matrix (lo hi : Int) (n : Nat) (stream : Nat → Nat) : NpMatrix :=
  ⟨n, n, (List.range (n * n)).map fun i => lo + (stream i : Int) % (hi - lo)⟩

/-- Modelled from the spec: `np.random.randint` with a square `size=(n, n)`
argument.  A negative dimension raises `ValueError` ("negative dimensions
are not allowed"); otherwise the call returns the generated matrix. -/
def np_random_randint (lo hi : Int) (n : Int) (stream : Nat → Nat) :
    Except String NpMatrix :=
  if n < 0 then Except.error "ValueError: negative dimensions are not allowed"
  else Except.ok (randint_matrix lo hi n.toNat stream)

/-- Loop state of one timing loop of the harness: durations collected so
far, run lines printed so far, and how many `time.perf_counter()` calls have
been made (the clock stream index). -/
structure TimingState where
  times : List ℚ
  lines : List String
  clk : Nat
  deriving Repr

/-- Everything observable about one `run_performance_test()` call: the
console lines, the uncaught exception if any (non-zero exit status), the
collected per-run durations, the two averages and the reported ratio. -/
structure HarnessResult where
  output : List String
  error : Option String
  rowTimes : List ℚ
  colTimes : List ℚ
  avgRow : Option ℚ
  avgCol : Option ℚ
  ratio : Option ℚ
  deriving Repr

/-- `print("-" * 40)`. -/
def dash_line : String := "----------------------------------------"

/-- `run_performance_test` (src lines 40-101), parameterized by the
module-level configuration `MATRIX_SIZE` and `NUM_RUNS` (src lines 8-9), by
the random stream consumed by `np.random.randint`, and by the
`time.perf_counter()` value stream (rationals standing for the float
seconds; call `k` of the clock returns `clock k`). -/
def run_performance_test (matrix_size : Int) (num_runs : Nat)
    (stream : Nat → Nat) (clock : Nat → ℚ) : HarnessResult :=
  let out0 : List String :=
    ["--- Data Locality Performance Test ---",
     s!"Matrix size: {matrix_size}x{matrix_size}",
     s!"Number of runs per test: {num_runs}",
     dash_line,
     "Generating matrix..."]
  match np_random_randint 0 100 matrix_size stream with
  | Except.error e =>
      { output := out0, error := some e, rowTimes := [], colTimes := [],
        avgRow := none, avgCol := none, ratio := none }
  | Except.ok data_matrix =>
      let out1 := out0 ++ ["Matrix generated.", dash_line,
        s!"Testing Row-Major Summation ({num_runs} runs)..."]
      let rowSt :=
        (List.range num_runs).foldl
          (fun (st : TimingState) i =>
            let start_time := clock st.clk
            let _ := sum_matrix_row_major data_matrix
            let end_time := clock (st.clk + 1)
            let duration := end_time - start_time
            let ip1 := i + 1
            { times := st.times ++ [duration],
              lines := st.lines ++ [s!"  Run {ip1}: {duration} seconds"],
              clk := st.clk + 2 })
          ⟨[], [], 0⟩
      let avg_row_major_time := rowSt.times.sum / (num_runs : ℚ)
      let out2 := out1 ++ rowSt.lines ++
        [s!"Average Row-Major Time: {avg_row_major_time} seconds", dash_line,
         s!"Testing Column-Major Summation ({num_runs} runs)..."]
      let colSt :=
        (List.range num_runs).foldl
          (fun (st : TimingState) i =>
            let start_time := clock st.clk
            let _ := sum_matrix_column_major data_matrix
            let end_time := clock (st.clk + 1)
            let duration := end_time - start_time
            let ip1 := i + 1
            { times := st.times ++ [duration],
              lines := st.lines ++ [s!"  Run {ip1}: {duration} seconds"],
              clk := st.clk + 2 })
          ⟨[], [], rowSt.clk⟩
      let avg_column_major_time := colSt.times.sum / (num_runs : ℚ)
      let out3 := out2 ++ colSt.lines ++
        [s!"Average Column-Major Time: {avg_column_major_time} seconds",
         dash_line,
         "--- Performance Analysis ---",
         s!"Average Row-Major Time:   {avg_row_major_time} seconds",
         s!"Average Column-Major Time: {avg_column_major_time} seconds"]
      let ratio : Option ℚ :=
        if 0 < avg_row_major_time then
          some (avg_column_major_time / avg_row_major_time)
        else none
      let out4 := out3 ++
        (match ratio with
         | some speedup =>
             [s!"Column-Major is approximately {speedup}x slower than Row-Major."]
         | none => ["Row-major time was too small to calculate speedup."]) ++
        [dash_line]
      { output := out4, error := none, rowTimes := rowSt.times,
        colTimes := colSt.times, avgRow := some avg_row_major_time,
        avgCol := some avg_column_major_time, ratio := ratio }

/-- The duration samples a timing loop of `k` runs collects when its first
`perf_counter` call is clock index `c0`: run `i` is bracketed by clock reads
`c0 + 2*i` and `c0 + 2*i + 1`. -/
def run_durations (clock : Nat → ℚ) (c0 k : Nat) : List ℚ :=
  (List.range k).map fun i => clock (c0 + 2 * i + 1) - clock (c0 + 2 * i)

section FoldLemmas

/-- Folding the accumulate step over any index list from a failed
accumulator stays failed. -/
lemma foldStep_none (g : Nat → Option Int) (l : List Nat) :
    l.foldl (fun acc i => acc.bind fun s => (g i).map fun x => s + x) none
      = none := by
  induction l with
  | nil => rfl
  | cons a l ih => simpa using ih

/-- If every read in `range k` succeeds with value `v i`, the accumulate
fold from `some s` returns `some` of `s` plus the sum of the values. -/
lemma foldStep_some (g : Nat → Option Int) (v : Nat → Int) (k : Nat)
    (h : ∀ i < k, g i = some (v i)) (s : Int) :
    (List.range k).foldl
        (fun acc i => acc.bind fun s => (g i).map fun x => s + x) (some s)
      = some (s + ∑ i ∈ Finset.range k, v i) := by
  induction k with
  | zero => simp
  | succ k ih =>
    rw [List.range_succ, List.foldl_append,
      ih (fun i hi => h i (Nat.lt_succ_of_lt hi))]
    simp [h k (Nat.lt_succ_self k), Finset.sum_range_succ, add_assoc]

end FoldLemmas

/-- In-bounds flat offsets: every loop access lands inside the buffer when
the buffer holds at least `rows * cols` elements. -/
lemma offset_lt_length (m : NpMatrix) (h : m.rows * m.cols ≤ m.data.length)
    {r c : Nat} (hr : r < m.rows) (hc : c < m.cols) :
    r * m.cols + c < m.data.length := by
  have h1 : r * m.cols + c < (r + 1) * m.cols := by
    rw [Nat.add_mul, Nat.one_mul]
    exact Nat.add_lt_add_left hc _
  have h2 : (r + 1) * m.cols ≤ m.rows * m.cols :=
    Nat.mul_le_mul_right _ hr
  exact lt_of_lt_of_le h1 (le_trans h2 h)

/-- A successful in-bounds read returns the defaulted element. -/
lemma get_eq_some_eltD (m : NpMatrix) (h : m.rows * m.cols ≤ m.data.length)
    {r c : Nat} (hr : r < m.rows) (hc : c < m.cols) :
    m.get r c = some (m.eltD r c) := by
  have hlt := offset_lt_length m h hr hc
  rw [NpMatrix.get, if_pos ⟨hr, hc⟩, NpMatrix.eltD,
    List.getElem?_eq_getElem hlt]
  rfl

/-- Row-major summation computes the mathematical sum whenever the buffer
covers the shape. -/
lemma sum_row_major_eq (m : NpMatrix) (h : m.rows * m.cols ≤ m.data.length) :
    sum_matrix_row_major m = some m.msum := by
  rw [sum_matrix_row_major]
  have hinner : ∀ (acc : Option Int), ∀ r ∈ List.range m.rows,
      (List.range m.cols).foldl
          (fun acc2 c => acc2.bind fun s => (m.get r c).map fun x => s + x)
          acc
        = acc.bind fun s =>
            (some (∑ c ∈ Finset.range m.cols, m.eltD r c)).map fun x =>
              s + x := by
    intro acc r hr
    rw [List.mem_range] at hr
    cases acc with
    | none => rw [foldStep_none]; rfl
    | some s =>
      rw [foldStep_some (fun c => m.get r c) (fun c => m.eltD r c) m.cols
        (fun c hc => get_eq_some_eltD m h hr hc) s]
      rfl
  rw [List.foldl_ext _ _ _ hinner,
    foldStep_some _ (fun r => ∑ c ∈ Finset.range m.cols, m.eltD r c) m.rows
      (fun _ _ => rfl) 0]
  rw [NpMatrix.msum, zero_add]

/-- Column-major summation computes the same mathematical sum whenever the
buffer covers the shape. -/
lemma sum_col_major_eq (m : NpMatrix) (h : m.rows * m.cols ≤ m.data.length) :
    sum_matrix_column_major m = some m.msum := by
  rw [sum_matrix_column_major]
  have hinner : ∀ (acc : Option Int), ∀ c ∈ List.range m.cols,
      (List.range m.rows).foldl
          (fun acc2 r => acc2.bind fun s => (m.get r c).map fun x => s + x)
          acc
        = acc.bind fun s =>
            (some (∑ r ∈ Finset.range m.rows, m.eltD r c)).map fun x =>
              s + x := by
    intro acc c hc
    rw [List.mem_range] at hc
    cases acc with
    | none => rw [foldStep_none]; rfl
    | some s =>
      rw [foldStep_some (fun r => m.get r c) (fun r => m.eltD r c) m.rows
        (fun r hr => get_eq_some_eltD m h hr hc) s]
      rfl
  rw [List.foldl_ext _ _ _ hinner,
    foldStep_some _ (fun c => ∑ r ∈ Finset.range m.rows, m.eltD r c) m.cols
      (fun _ _ => rfl) 0]
  rw [NpMatrix.msum, zero_add, Finset.sum_comm]

/-- Summing defaulted positions over the whole index range of a list gives
the list sum. -/
lemma sum_range_getD (l : List Int) :
    ∑ i ∈ Finset.range l.length, (l[i]?).getD 0 = l.sum := by
  induction l with
  | nil => simp
  | cons a l ih =>
    rw [List.length_cons, Finset.sum_range_succ']
    simp only [List.getElem?_cons_succ, List.getElem?_cons_zero,
      Option.getD_some, List.sum_cons]
    rw [ih, add_comm]

/-- Flattening a double sum over a row-major index grid. -/
lemma double_sum_flatten (R C : Nat) (f : Nat → Int) :
    ∑ r ∈ Finset.range R, ∑ c ∈ Finset.range C, f (r * C + c)
      = ∑ i ∈ Finset.range (R * C), f i := by
  induction R with
  | zero => simp
  | succ R ih =>
    rw [Finset.sum_range_succ, ih, Nat.succ_mul, Finset.sum_range_add]

/-- When the buffer holds exactly `rows * cols` elements, the mathematical
sum is the sum of the stored elements. -/
lemma msum_eq_data_sum (m : NpMatrix) (h : m.data.length = m.rows * m.cols) :
    m.msum = m.data.sum := by
  rw [NpMatrix.msum]
  have := double_sum_flatten m.rows m.cols (fun i => (m.data[i]?).getD 0)
  simp only [NpMatrix.eltD]
  rw [this, ← h, sum_range_getD]

/-- The inner read-accumulate loop leaves the threaded matrix untouched and
computes the same accumulator as the plain fold. -/
lemma run_inner_eq (r : Nat) (l : List Nat) (acc : Option Int)
    (mm : NpMatrix) :
    l.foldl
        (fun st2 c =>
          (st2.1.bind fun s => (st2.2.get r c).map fun x => s + x, st2.2))
        (acc, mm)
      = (l.foldl (fun a c => a.bind fun s => (mm.get r c).map fun x => s + x)
          acc, mm) := by
  induction l generalizing acc with
  | nil => rfl
  | cons c l ih => exact ih _

/-- The column-inner variant of `run_inner_eq` (inner index is the row). -/
lemma run_inner_eq_col (c : Nat) (l : List Nat) (acc : Option Int)
    (mm : NpMatrix) :
    l.foldl
        (fun st2 r =>
          (st2.1.bind fun s => (st2.2.get r c).map fun x => s + x, st2.2))
        (acc, mm)
      = (l.foldl (fun a r => a.bind fun s => (mm.get r c).map fun x => s + x)
          acc, mm) := by
  induction l generalizing acc with
  | nil => rfl
  | cons r l ih => exact ih _

/-- The outer row loop of the state-passing run stays paired with the
unchanged matrix. -/
lemma row_run_aux (m : NpMatrix) (l : List Nat) (acc : Option Int) :
    l.foldl
        (fun st r =>
          (List.range m.cols).foldl
            (fun st2 c =>
              (st2.1.bind fun s => (st2.2.get r c).map fun x => s + x,
                st2.2))
            st)
        (acc, m)
      = (l.foldl
          (fun a r =>
            (List.range m.cols).foldl
              (fun a2 c => a2.bind fun s => (m.get r c).map fun x => s + x)
              a)
          acc, m) := by
  induction l generalizing acc with
  | nil => rfl
  | cons r l ih =>
    rw [List.foldl_cons, List.foldl_cons, run_inner_eq, ih]

/-- The outer column loop of the state-passing run stays paired with the
unchanged matrix. -/
lemma col_run_aux (m : NpMatrix) (l : List Nat) (acc : Option Int) :
    l.foldl
        (fun st c =>
          (List.range m.rows).foldl
            (fun st2 r =>
              (st2.1.bind fun s => (st2.2.get r c).map fun x => s + x,
                st2.2))
            st)
        (acc, m)
      = (l.foldl
          (fun a c =>
            (List.range m.rows).foldl
              (fun a2 r => a2.bind fun s => (m.get r c).map fun x => s + x)
              a)
          acc, m) := by
  induction l generalizing acc with
  | nil => rfl
  | cons c l ih =>
    rw [List.foldl_cons, List.foldl_cons, run_inner_eq_col, ih]

/-- The state-passing row-major run returns the plain sum and the matrix it
was given. -/
lemma row_major_run_eq (m : NpMatrix) :
    sum_matrix_row_major_run m = (sum_matrix_row_major m, m) := by
  rw [sum_matrix_row_major_run, sum_matrix_row_major, row_run_aux]

/-- The state-passing column-major run returns the plain sum and the matrix
it was given. -/
lemma col_major_run_eq (m : NpMatrix) :
    sum_matrix_column_major_run m = (sum_matrix_column_major m, m) := by
  rw [sum_matrix_column_major_run, sum_matrix_column_major, col_run_aux]

/-- For a non-negative size, `np.random.randint` returns the generated
matrix. -/
lemma np_random_randint_ok (lo hi n : Int) (stream : Nat → Nat)
    (h : 0 ≤ n) :
    np_random_randint lo hi n stream
      = Except.ok (randint_matrix lo hi n.toNat stream) := by
  rw [np_random_randint, if_neg (not_lt.2 h)]

/-- For a negative size, `np.random.randint` raises `ValueError`. -/
lemma np_random_randint_err (lo hi n : Int) (stream : Nat → Nat)
    (h : n < 0) :
    np_random_randint lo hi n stream
      = Except.error "ValueError: negative dimensions are not allowed" := by
  rw [np_random_randint, if_pos h]

/-- One timing loop of the harness, fully unrolled: starting from clock
index `c0` it appends `k` duration samples and `k` run lines in run order
and advances the clock index by `2 * k`. -/
lemma timing_fold (clock : Nat → ℚ) (k c0 : Nat) (ts : List ℚ)
    (ls : List String) :
    (List.range k).foldl
        (fun (st : TimingState) i =>
          { times := st.times ++ [clock (st.clk + 1) - clock st.clk],
            lines := st.lines ++
              [s!"  Run {i + 1}: {clock (st.clk + 1) - clock st.clk} seconds"],
            clk := st.clk + 2 })
        ⟨ts, ls, c0⟩
      = ⟨ts ++ run_durations clock c0 k,
         ls ++ (List.range k).map
            (fun i =>
              s!"  Run {i + 1}: {clock (c0 + 2 * i + 1) - clock (c0 + 2 * i)} seconds"),
         c0 + 2 * k⟩ := by
  induction k with
  | zero => simp [run_durations]
  | succ k ih =>
    rw [List.range_succ, List.foldl_append, ih]
    simp only [run_durations, List.range_succ, List.foldl_cons,
      List.foldl_nil, List.map_append, List.map_cons, List.map_nil,
      List.append_assoc, Nat.mul_succ, Nat.add_assoc]

/-- A negative configured size aborts `run_performance_test` right after the
"Generating matrix..." line: the `ValueError` escapes, no samples are
collected and no averages or ratio are produced. -/
lemma run_performance_test_neg (size : Int) (k : Nat) (stream : Nat → Nat)
    (clock : Nat → ℚ) (h : size < 0) :
    run_performance_test size k stream clock
      = { output := ["--- Data Locality Performance Test ---",
            s!"Matrix size: {size}x{size}",
            s!"Number of runs per test: {k}",
            dash_line,
            "Generating matrix..."],
          error := some "ValueError: negative dimensions are not allowed",
          rowTimes := [], colTimes := [],
          avgRow := none, avgCol := none, ratio := none } := by
  simp only [run_performance_test, np_random_randint_err _ _ _ _ h]

/-- The observable fields of a completed (non-negative size) run: the two
sample lists, that averages are sums over the run count, and the exact
guard on the reported ratio. -/
lemma run_ok_fields (size : Int) (k : Nat) (stream : Nat → Nat)
    (clock : Nat → ℚ) (hsz : 0 ≤ size) :
    (run_performance_test size k stream clock).error = none ∧
    (run_performance_test size k stream clock).rowTimes
        = run_durations clock 0 k ∧
    (run_performance_test size k stream clock).colTimes
        = run_durations clock (2 * k) k ∧
    (run_performance_test size k stream clock).avgRow
        = some ((run_durations clock 0 k).sum / (k : ℚ)) ∧
    (run_performance_test size k stream clock).avgCol
        = some ((run_durations clock (2 * k) k).sum / (k : ℚ)) ∧
    (run_performance_test size k stream clock).ratio
        = (if 0 < (run_durations clock 0 k).sum / (k : ℚ) then
            some (((run_durations clock (2 * k) k).sum / (k : ℚ))
              / ((run_durations clock 0 k).sum / (k : ℚ)))
          else none) ∧
    "Generating matrix..." ∈
        (run_performance_test size k stream clock).output := by
  simp only [run_performance_test, np_random_randint_ok _ _ _ _ hsz,
    timing_fold, List.nil_append, Nat.zero_add]
  refine ⟨?_, ?_, ?_, ?_, ?_, ?_, ?_⟩
  · trivial
  · trivial
  · trivial
  · trivial
  · trivial
  · trivial
  · simp [List.mem_append, List.mem_cons]

/-- C1: for every matrix readable by both summers (the buffer covers the
shape), `sum_matrix_row_major` and `sum_matrix_column_major` return
identical totals: both sum the same multiset of elements in different
orders. -/
theorem row_col_sums_agree (m : NpMatrix)
    (h : m.rows * m.cols ≤ m.data.length) :
    sum_matrix_row_major m = sum_matrix_column_major m := by
  rw [sum_row_major_eq m h, sum_col_major_eq m h]

theorem row_col_sums_agree_witness :
    sum_matrix_row_major ⟨2, 3, [1, 2, 3, 4, 5, 6]⟩
      = sum_matrix_column_major ⟨2, 3, [1, 2, 3, 4, 5, 6]⟩ :=
  row_col_sums_agree ⟨2, 3, [1, 2, 3, 4, 5, 6]⟩ (by decide)

/-- C2: the claim (and the spec's 4.2 contract, "the exact sum of all
elements as a 64-bit (or wider) integer") is what the code intends, but the
code's accumulator is an `np.int32` that wraps modulo 2^32: on the 2 x 2
matrix `[[2^30, 2^30], [0, 0]]` (each element a valid `int32`) the width-
faithful row-major summer returns `-2147483648`, not the exact sum
`2147483648` that the idealized accumulator computes. -/
theorem row_major_i32_wraps_not_exact :
    sum_matrix_row_major_i32 ⟨2, 2, [1073741824, 1073741824, 0, 0]⟩
        = some (-2147483648) ∧
    (⟨2, 2, [1073741824, 1073741824, 0, 0]⟩ : NpMatrix).data.sum
        = 2147483648 ∧
    sum_matrix_row_major ⟨2, 2, [1073741824, 1073741824, 0, 0]⟩
        = some 2147483648 := by
  refine ⟨by decide, by decide, ?_⟩
  exact (sum_row_major_eq ⟨2, 2, [1073741824, 1073741824, 0, 0]⟩
    (by decide)).trans (by decide)

/-- C4: the claim (and the spec) says the total is accumulated in a 64-bit
or wider integer and never wraps at 32 bits, but the code's `total_sum`
becomes an `np.int32` after the first `+=` and wraps: on the matrix
`[2^30, 2^30]`, whose exact sum 2^31 is one past the largest signed 32-bit
value, both width-faithful summers return `-2147483648`. -/
theorem summers_i32_wrap_at_2pow31 :
    sum_matrix_row_major_i32 ⟨1, 2, [1073741824, 1073741824]⟩
        = some (-2147483648) ∧
    sum_matrix_column_major_i32 ⟨1, 2, [1073741824, 1073741824]⟩
        = some (-2147483648) ∧
    (⟨1, 2, [1073741824, 1073741824]⟩ : NpMatrix).data.sum
        = 2147483648 := by
  refine ⟨by decide, by decide, by decide⟩

/-- C8: both summers are deterministic and read-only.  In the state-passing
embedding the matrix component of the loop state comes back unchanged
(element for element), and re-running a summer on the matrix returned by a
first run yields the same sum. -/
theorem summers_deterministic_read_only (m : NpMatrix) :
    (sum_matrix_row_major_run m).2 = m ∧
    (sum_matrix_column_major_run m).2 = m ∧
    (sum_matrix_row_major_run (sum_matrix_row_major_run m).2).1
        = (sum_matrix_row_major_run m).1 ∧
    (sum_matrix_column_major_run (sum_matrix_column_major_run m).2).1
        = (sum_matrix_column_major_run m).1 := by
  simp [row_major_run_eq, col_major_run_eq]

/-- C9: on a matrix whose buffer holds exactly `rows * cols` elements, every
access either summer performs is in bounds, so both are total (they return
`some` sum, never an index failure). -/
theorem summers_total_in_bounds (m : NpMatrix)
    (hlen : m.data.length = m.rows * m.cols) :
    (sum_matrix_row_major m).isSome ∧
    (sum_matrix_column_major m).isSome := by
  have h : m.rows * m.cols ≤ m.data.length := le_of_eq hlen.symm
  rw [sum_row_major_eq m h, sum_col_major_eq m h]
  exact ⟨rfl, rfl⟩

theorem summers_total_in_bounds_witness :
    (sum_matrix_row_major ⟨2, 2, [7, 1, 0, 4]⟩).isSome ∧
    (sum_matrix_column_major ⟨2, 2, [7, 1, 0, 4]⟩).isSome :=
  summers_total_in_bounds ⟨2, 2, [7, 1, 0, 4]⟩ (by decide)

/-- C10: on an empty matrix (zero rows or zero columns) both summers return
0 rather than failing: the corresponding loop body never executes. -/
theorem empty_matrix_sums_zero (m : NpMatrix)
    (h : m.rows = 0 ∨ m.cols = 0) :
    sum_matrix_row_major m = some 0 ∧
    sum_matrix_column_major m = some 0 := by
  have hle : m.rows * m.cols ≤ m.data.length := by
    rcases h with h | h <;> simp [h]
  have hz : m.msum = 0 := by
    rcases h with h | h <;> simp [NpMatrix.msum, h]
  rw [sum_row_major_eq m hle, sum_col_major_eq m hle, hz]
  exact ⟨rfl, rfl⟩

theorem empty_matrix_sums_zero_witness :
    sum_matrix_row_major ⟨0, 5, []⟩ = some 0 ∧
    sum_matrix_column_major ⟨0, 5, []⟩ = some 0 :=
  empty_matrix_sums_zero ⟨0, 5, []⟩ (Or.inl rfl)

/-- C5: for every positive size `n`, any random stream and any value range
with `lo < hi` (the harness uses `[0, 100)`), generation succeeds and
produces exactly `n * n` elements, each within `[lo, hi)`. -/
theorem randint_shape_and_range (lo hi n : Int) (stream : Nat → Nat)
    (hn : 0 < n) (hlohi : lo < hi) :
    ∃ M : NpMatrix, np_random_randint lo hi n stream = Except.ok M ∧
      M.rows = n.toNat ∧ M.cols = n.toNat ∧
      M.data.length = n.toNat * n.toNat ∧
      ∀ x ∈ M.data, lo ≤ x ∧ x < hi := by
  refine ⟨randint_matrix lo hi n.toNat stream,
    np_random_randint_ok lo hi n stream (le_of_lt hn), rfl, rfl, ?_, ?_⟩
  · simp [randint_matrix]
  · intro x hx
    simp only [randint_matrix, List.mem_map, List.mem_range] at hx
    obtain ⟨i, -, rfl⟩ := hx
    have hpos : 0 < hi - lo := sub_pos.2 hlohi
    constructor
    · have := Int.emod_nonneg (stream i : Int) (ne_of_gt hpos)
      linarith
    · have := Int.emod_lt_of_pos (stream i : Int) hpos
      linarith

theorem randint_shape_and_range_witness :
    ∃ M : NpMatrix,
      np_random_randint 0 100 2 (fun i => i) = Except.ok M ∧
      M.rows = (2 : Int).toNat ∧ M.cols = (2 : Int).toNat ∧
      M.data.length = (2 : Int).toNat * (2 : Int).toNat ∧
      ∀ x ∈ M.data, 0 ≤ x ∧ x < 100 :=
  randint_shape_and_range 0 100 2 (fun i => i) (by decide) (by decide)

/-- C6: with any run count `k >= 1` a completed harness run collects exactly
`k` duration samples per traversal kind, in run order (run `i` of a loop
whose first clock read has index `c0` is `clock (c0 + 2*i + 1) - clock
(c0 + 2*i)`, and the column-major loop starts at `c0 = 2*k`), and each
reported average is the arithmetic mean (sum over `k`) of its samples. -/
theorem harness_collects_k_samples (size : Int) (k : Nat)
    (stream : Nat → Nat) (clock : Nat → ℚ) (hsz : 0 ≤ size)
    (_hk : 1 ≤ k) :
    (run_performance_test size k stream clock).rowTimes
        = (List.range k).map (fun i => clock (2 * i + 1) - clock (2 * i)) ∧
    (run_performance_test size k stream clock).colTimes
        = (List.range k).map
            (fun i => clock (2 * k + 2 * i + 1) - clock (2 * k + 2 * i)) ∧
    (run_performance_test size k stream clock).rowTimes.length = k ∧
    (run_performance_test size k stream clock).colTimes.length = k ∧
    (run_performance_test size k stream clock).avgRow
        = some ((run_performance_test size k stream clock).rowTimes.sum
            / (k : ℚ)) ∧
    (run_performance_test size k stream clock).avgCol
        = some ((run_performance_test size k stream clock).colTimes.sum
            / (k : ℚ)) := by
  obtain ⟨-, hrt, hct, hA, hC, -, -⟩ := run_ok_fields size k stream clock hsz
  refine ⟨?_, ?_, ?_, ?_, ?_, ?_⟩
  · rw [hrt]; simp [run_durations]
  · rw [hct]; simp [run_durations, Nat.add_assoc]
  · rw [hrt]; simp [run_durations]
  · rw [hct]; simp [run_durations]
  · rw [hA, hrt]
  · rw [hC, hct]

theorem harness_collects_k_samples_witness :
    (run_performance_test 2 1 (fun _ => 0) (fun n => (n : ℚ))).rowTimes
        = (List.range 1).map
            (fun i => (fun n : Nat => (n : ℚ)) (2 * i + 1)
              - (fun n : Nat => (n : ℚ)) (2 * i)) ∧
    (run_performance_test 2 1 (fun _ => 0) (fun n => (n : ℚ))).colTimes
        = (List.range 1).map
            (fun i => (fun n : Nat => (n : ℚ)) (2 * 1 + 2 * i + 1)
              - (fun n : Nat => (n : ℚ)) (2 * 1 + 2 * i)) ∧
    (run_performance_test 2 1 (fun _ => 0)
        (fun n => (n : ℚ))).rowTimes.length = 1 ∧
    (run_performance_test 2 1 (fun _ => 0)
        (fun n => (n : ℚ))).colTimes.length = 1 ∧
    (run_performance_test 2 1 (fun _ => 0) (fun n => (n : ℚ))).avgRow
        = some ((run_performance_test 2 1 (fun _ => 0)
            (fun n => (n : ℚ))).rowTimes.sum / ((1 : Nat) : ℚ)) ∧
    (run_performance_test 2 1 (fun _ => 0) (fun n => (n : ℚ))).avgCol
        = some ((run_performance_test 2 1 (fun _ => 0)
            (fun n => (n : ℚ))).colTimes.sum / ((1 : Nat) : ℚ)) :=
  harness_collects_k_samples 2 1 (fun _ => 0) (fun n => (n : ℚ))
    (by norm_num) (le_refl 1)

/-- C3 counterexample: with the size configured to 0 the program does not
fail at all, contrary to the claim: generation succeeds with a 0 x 0 matrix,
the "Generating matrix..." line is printed, and the run completes normally
(no error, exit status 0). -/
theorem size_zero_run_completes :
    (run_performance_test 0 5 (fun _ => 0) (fun _ => 0)).error = none ∧
    "Generating matrix..." ∈
      (run_performance_test 0 5 (fun _ => 0) (fun _ => 0)).output :=
  ⟨(run_ok_fields 0 5 (fun _ => 0) (fun _ => 0) le_rfl).1,
   (run_ok_fields 0 5 (fun _ => 0) (fun _ => 0) le_rfl).2.2.2.2.2.2⟩

/-- C3 (amended): only a negative configured size makes the program fail:
`np.random.randint` raises `ValueError` (not an "InvalidArgument" error),
the exception escapes (non-zero exit status), and no samples, averages or
ratio are produced -- but the failure happens inside generation, after the
"Generating matrix..." line has already been printed (it is the last output
line).  A size of 0 is accepted and the run completes normally. -/
theorem negative_size_aborts (size : Int) (k : Nat) (stream : Nat → Nat)
    (clock : Nat → ℚ) (h : size < 0) :
    (run_performance_test size k stream clock).error
        = some "ValueError: negative dimensions are not allowed" ∧
    (run_performance_test size k stream clock).rowTimes = [] ∧
    (run_performance_test size k stream clock).colTimes = [] ∧
    (run_performance_test size k stream clock).avgRow = none ∧
    (run_performance_test size k stream clock).avgCol = none ∧
    (run_performance_test size k stream clock).ratio = none ∧
    (run_performance_test size k stream clock).output.getLast?
        = some "Generating matrix..." := by
  rw [run_performance_test_neg size k stream clock h]
  exact ⟨rfl, rfl, rfl, rfl, rfl, rfl, rfl⟩

theorem negative_size_aborts_witness :
    (run_performance_test (-1) 5 (fun _ => 0) (fun _ => 0)).error
        = some "ValueError: negative dimensions are not allowed" ∧
    (run_performance_test (-1) 5 (fun _ => 0) (fun _ => 0)).rowTimes = [] ∧
    (run_performance_test (-1) 5 (fun _ => 0) (fun _ => 0)).colTimes = [] ∧
    (run_performance_test (-1) 5 (fun _ => 0) (fun _ => 0)).avgRow
        = none ∧
    (run_performance_test (-1) 5 (fun _ => 0) (fun _ => 0)).avgCol
        = none ∧
    (run_performance_test (-1) 5 (fun _ => 0) (fun _ => 0)).ratio = none ∧
    (run_performance_test (-1) 5 (fun _ => 0)
        (fun _ => 0)).output.getLast? = some "Generating matrix..." :=
  negative_size_aborts (-1) 5 (fun _ => 0) (fun _ => 0) (by norm_num)

/-- C7 counterexample: a run whose row-major average is one nanosecond --
the clock here ticks in whole nanoseconds, so this average is *at* the
clock's resolution, not measurably above it -- still gets a slowdown ratio
computed and reported: the source only guards against an average of exactly
zero. -/
theorem tiny_positive_average_gets_speedup :
    (run_performance_test 0 1 (fun _ => 0)
        (fun n => (n : ℚ) / 1000000000)).avgRow
      = some (1 / 1000000000) ∧
    ((1 : ℚ) / 1000000000 < 1 / 1000000) ∧
    (run_performance_test 0 1 (fun _ => 0)
        (fun n => (n : ℚ) / 1000000000)).ratio = some 1 := by
  obtain ⟨-, -, -, hA, -, hR, -⟩ := run_ok_fields 0 1 (fun _ => 0)
    (fun n => (n : ℚ) / 1000000000) le_rfl
  have h1 : (run_durations (fun n => (n : ℚ) / 1000000000) 0 1).sum
      / ((1 : Nat) : ℚ) = 1 / 1000000000 := by
    norm_num [run_durations, show List.range 1 = [0] from rfl]
  have h2 : (run_durations (fun n => (n : ℚ) / 1000000000) (2 * 1) 1).sum
      / ((1 : Nat) : ℚ) = 1 / 1000000000 := by
    norm_num [run_durations, show List.range 1 = [0] from rfl]
  rw [h1] at hA hR
  rw [h2] at hR
  rw [if_pos (by norm_num : (0 : ℚ) < 1 / 1000000000)] at hR
  refine ⟨hA, by norm_num, ?_⟩
  rw [hR]
  norm_num

/-- C7 (amended): a completed run computes the ratio if and only if the
row-major average is strictly positive -- the guard is the exact comparison
`avg_row_major_time > 0`, with no epsilon for "not measurably above clock
resolution" -- and when computed the reported ratio is exactly
average(column-major) / average(row-major). -/
theorem ratio_guard_checks_exact_zero (size : Int) (k : Nat)
    (stream : Nat → Nat) (clock : Nat → ℚ) (hsz : 0 ≤ size) (a c : ℚ)
    (ha : (run_performance_test size k stream clock).avgRow = some a)
    (hc : (run_performance_test size k stream clock).avgCol = some c) :
    (0 < a → (run_performance_test size k stream clock).ratio
        = some (c / a)) ∧
    (a ≤ 0 → (run_performance_test size k stream clock).ratio = none) := by
  obtain ⟨-, -, -, hA, hC, hR, -⟩ := run_ok_fields size k stream clock hsz
  rw [hA] at ha
  rw [hC] at hc
  injection ha with ha
  injection hc with hc
  subst ha
  subst hc
  constructor
  · intro hpos
    rw [hR, if_pos hpos]
  · intro hle
    rw [hR, if_neg (not_lt.2 hle)]

theorem ratio_guard_checks_exact_zero_witness :
    (0 < (1 : ℚ) → (run_performance_test 0 1 (fun _ => 0)
        (fun n => (n : ℚ))).ratio = some ((1 : ℚ) / 1)) ∧
    ((1 : ℚ) ≤ 0 → (run_performance_test 0 1 (fun _ => 0)
        (fun n => (n : ℚ))).ratio = none) := by
  refine ratio_guard_checks_exact_zero 0 1 (fun _ => 0) (fun n => (n : ℚ))
    le_rfl 1 1 ?_ ?_
  · obtain ⟨-, -, -, hA, -, -, -⟩ := run_ok_fields 0 1 (fun _ => 0)
      (fun n => (n : ℚ)) le_rfl
    rw [hA]
    norm_num [run_durations, show List.range 1 = [0] from rfl]
  · obtain ⟨-, -, -, -, hC, -, -⟩ := run_ok_fields 0 1 (fun _ => 0)
      (fun n => (n : ℚ)) le_rfl
    rw [hC]
    norm_num [run_durations, show List.range 1 = [0] from rfl]
